import Mathlib

/-
  Shallow embedding of src/Extension/lib/filter/filtering-log.js, the
  per-tab filtering decision log of the AdGuard browser extension.

  The module keeps a map from tab id to tab info (metadata plus an optional
  bounded buffer of filtering events), a reference count of opened filtering
  log pages, and publishes notifications through a listener bus.  The JS
  mutable module state is modelled as an explicit LogState value threaded
  through every operation; every operation returns the new state together
  with the list of notifications it published, in order.
-/

namespace FilteringLog

/-- Capacity of one tab event buffer; REQUESTS_SIZE_PER_TAB in the source. -/
def REQUESTS_SIZE_PER_TAB : Nat := 1000

/-- Modelled from the spec: the designated background session id
(`adguard.BACKGROUND_TAB_ID`, supplied by the host environment outside this
file); it represents non-tab-bound traffic. -/
def backgroundTabId : Int := -1

/-- Modelled from the spec: the host-localized title of the background tab
(`adguard.i18n.getMessage` lookup, external to this file). -/
def backgroundTabTitle : String := "Background"

/-- Modelled from the spec: the extension base URL (`adguard.getURL` with an
empty argument, external to this file). -/
def extensionURL : String := "ext://filtering-log/"

/-- A live tab as delivered by the host session provider. -/
structure Tab where
  tabId : Int
  title : String
  url : Option String
deriving Repr, DecidableEq

/-- The copied, engine-decoupled projection of a rule, as built by
appendProperties and addReplaceRulesToFilteringEvent.  Absent JS object
properties are modelled as none. -/
structure RuleSnapshot where
  filterId : Option Nat := none
  ruleText : Option String := none
  contentRule : Option Bool := none
  cssRule : Option Bool := none
  whiteListRule : Option Bool := none
  cspRule : Option Bool := none
  cspDirective : Option String := none
  cookieRule : Option Bool := none
  replaceRule : Option Bool := none
  isModifyingCookieRule : Option Bool := none
deriving Repr, DecidableEq

/-- Runtime class of a live engine rule, discriminated in the source by
instanceof checks against ContentFilterRule, CssFilterRule and
UrlFilterRule; the url variant carries exactly the fields appendProperties
reads from a url rule.  The other variant covers a rule of none of the
three classes, for which the instanceof chain falls through. -/
inductive RuleClass where
  | content
  | css
  | url (whiteListRule : Bool) (cspRule : Bool) (cspDirective : Option String) (cookieOption : Bool)
  | other
deriving Repr, DecidableEq

/-- A live engine rule as seen by this module: only the fields the source
reads.  stealthActions models the numeric bitmask property read by
addCookieEvent; 0 doubles as the JS falsy absent value. -/
structure SourceRule where
  filterId : Nat
  ruleText : String
  ruleClass : RuleClass
  stealthActions : Nat := 0
deriving Repr, DecidableEq

/-- One record of the filtering log; absent JS properties are none. -/
structure FilteringEvent where
  eventId : Option Nat := none
  requestUrl : Option String := none
  requestDomain : Option String := none
  frameUrl : Option String := none
  frameDomain : Option String := none
  requestType : Option String := none
  requestThirdParty : Option Bool := none
  element : Option String := none
  cookieName : Option String := none
  cookieValue : Option String := none
  requestRule : Option RuleSnapshot := none
  replaceRules : Option (List RuleSnapshot) := none
  stealthActions : Option Nat := none
deriving Repr, DecidableEq

/-- Per-tab state kept in tabsInfoMap: metadata plus the optional event
buffer (the filteringEvents property, absent until the first push and after
a clear). -/
structure TabInfo where
  tabId : Int
  title : String
  isExtensionTab : Option Bool := none
  filteringEvents : Option (List FilteringEvent) := none
deriving Repr, DecidableEq

/-- The permanent background tab object of the source. -/
def backgroundTab : TabInfo :=
  { tabId := backgroundTabId, title := backgroundTabTitle }

/-- The notifications the module publishes through adguard.listeners:
TAB_ADDED, TAB_UPDATE, TAB_CLOSE, TAB_RESET, LOG_EVENT_ADDED,
LOG_EVENT_UPDATED, each with the arguments passed in the source. -/
inductive Notification where
  | tabAdded (tabInfo : TabInfo)
  | tabUpdate (tabInfo : TabInfo)
  | tabClose (tabInfo : TabInfo)
  | tabReset (tabInfo : TabInfo)
  | logEventAdded (tabInfo : TabInfo) (filteringEvent : FilteringEvent)
  | logEventUpdated (tabInfo : TabInfo) (filteringEvent : FilteringEvent)
deriving Repr, DecidableEq

/-- The mutable module state: tabsInfoMap (a JS object with integer keys,
modelled as an association list with unique keys) and the
openedFilteringLogsPage reference count. -/
structure LogState where
  tabsInfoMap : List (Int × TabInfo)
  openedFilteringLogsPage : Int
deriving Repr, DecidableEq

/-- Property read on the JS object tabsInfoMap. -/
def mapGet : List (Int × TabInfo) → Int → Option TabInfo
  | [], _ => none
  | p :: rest, k => if p.1 = k then some p.2 else mapGet rest k

/-- Property write on tabsInfoMap: replaces the entry at an existing key,
otherwise appends a new entry. -/
def mapSet : List (Int × TabInfo) → Int → TabInfo → List (Int × TabInfo)
  | [], k, v => [(k, v)]
  | p :: rest, k, v => if p.1 = k then (k, v) :: rest else p :: mapSet rest k v

/-- The JS delete operator on tabsInfoMap. -/
def mapDelete : List (Int × TabInfo) → Int → List (Int × TabInfo)
  | [], _ => []
  | p :: rest, k => if p.1 = k then mapDelete rest k else p :: mapDelete rest k

/-- Modelled from the spec: the external Domain/URL utility
`adguard.utils.url.getDomainName`; extracts the host segment of a URL. -/
def getDomainName (url : String) : String :=
  (((url.splitOn "://").getD 1 url).splitOn "/").headD ""

/-- Modelled from the spec: the external Domain/URL utility
`adguard.utils.url.isThirdPartyRequest`; compares the two domains. -/
def isThirdPartyRequest (requestUrl : String) (frameUrl : String) : Bool :=
  getDomainName requestUrl ≠ getDomainName frameUrl

/-- appendProperties of the source: copies filterId, ruleText and the
class-discriminated fields from the source rule onto the destination
snapshot. -/
def appendProperties (destinationRule : RuleSnapshot) (sourceRule : SourceRule) : RuleSnapshot :=
  let d := { destinationRule with
    filterId := some sourceRule.filterId
    ruleText := some sourceRule.ruleText }
  match sourceRule.ruleClass with
  | RuleClass.content => { d with contentRule := some true }
  | RuleClass.css => { d with cssRule := some true }
  | RuleClass.url w csp dir cok =>
      { d with
        whiteListRule := some w
        cspRule := some csp
        cspDirective := dir
        cookieRule := some cok }
  | RuleClass.other => d

/-- addRuleToFilteringEvent of the source: installs a fresh snapshot built
by appendProperties as the requestRule of the event, overwriting any prior
one. -/
def addRuleToFilteringEvent (filteringEvent : FilteringEvent) (requestRule : SourceRule) : FilteringEvent :=
  { filteringEvent with requestRule := some (appendProperties {} requestRule) }

/-- addReplaceRulesToFilteringEvent of the source: installs a requestRule
carrying only replaceRule = true and the list of copied replace rule
snapshots. -/
def addReplaceRulesToFilteringEvent (filteringEvent : FilteringEvent) (replaceRules : List SourceRule) : FilteringEvent :=
  { filteringEvent with
    requestRule := some { replaceRule := some true }
    replaceRules := some (replaceRules.map (fun r => appendProperties {} r)) }

/-- The buffer update inside pushFilteringEvent: push the event, then if
the length exceeds the capacity splice out the element at index 1 (the
source comment: do not remove the first item, it is the request to the
main frame). -/
def evictPush (events : List FilteringEvent) (filteringEvent : FilteringEvent) : List FilteringEvent :=
  let evs := events ++ [filteringEvent]
  if REQUESTS_SIZE_PER_TAB < evs.length then evs.eraseIdx 1 else evs

/-- pushFilteringEvent of the source: ensures the buffer exists, pushes the
event with eviction, publishes LOG_EVENT_ADDED with the tab info and the
event.  The caller passes the tab id and the tab info it looked up. -/
def pushFilteringEvent (st : LogState) (tabId : Int) (tabInfo : TabInfo) (filteringEvent : FilteringEvent) : LogState × List Notification :=
  let newEvents := evictPush (tabInfo.filteringEvents.getD []) filteringEvent
  let newTabInfo := { tabInfo with filteringEvents := some newEvents }
  ({ st with tabsInfoMap := mapSet st.tabsInfoMap tabId newTabInfo },
   [Notification.logEventAdded newTabInfo filteringEvent])

/-- updateTabInfo of the source: reuses the existing tab info object if
present (keeping its filteringEvents), refreshes tabId, title and
isExtensionTab, and stores it back. -/
def updateTabInfo (st : LogState) (tab : Tab) : LogState × TabInfo :=
  let prev := mapGet st.tabsInfoMap tab.tabId
  let tabInfo : TabInfo :=
    { tabId := tab.tabId
      title := tab.title
      isExtensionTab := tab.url.map (fun u => u.startsWith extensionURL)
      filteringEvents := match prev with
        | some t => t.filteringEvents
        | none => none }
  ({ st with tabsInfoMap := mapSet st.tabsInfoMap tab.tabId tabInfo }, tabInfo)

/-- addTab of the source: no-op for the background tab, otherwise upserts
the tab info and publishes TAB_ADDED. -/
def addTab (st : LogState) (tab : Tab) : LogState × List Notification :=
  if tab.tabId = backgroundTabId then (st, [])
  else
    let r := updateTabInfo st tab
    (r.1, [Notification.tabAdded r.2])

/-- removeTabById of the source: no-op for the background tab, otherwise
publishes TAB_CLOSE when the tab is known and deletes the entry. -/
def removeTabById (st : LogState) (tabId : Int) : LogState × List Notification :=
  if tabId = backgroundTabId then (st, [])
  else
    let notifs := match mapGet st.tabsInfoMap tabId with
      | some tabInfo => [Notification.tabClose tabInfo]
      | none => []
    ({ st with tabsInfoMap := mapDelete st.tabsInfoMap tabId }, notifs)

/-- updateTab of the source: no-op for the background tab, otherwise
upserts the tab info and publishes TAB_UPDATE. -/
def updateTab (st : LogState) (tab : Tab) : LogState × List Notification :=
  if tab.tabId = backgroundTabId then (st, [])
  else
    let r := updateTabInfo st tab
    (r.1, [Notification.tabUpdate r.2])

/-- getFilteringInfoByTabId of the source. -/
def getFilteringInfoByTabId (st : LogState) (tabId : Int) : Option TabInfo :=
  mapGet st.tabsInfoMap tabId

/-- addHttpRequestEvent of the source: gated on an opened log page and a
known tab, builds the request event (with a rule snapshot when a rule is
supplied) and pushes it. -/
def addHttpRequestEvent (st : LogState) (tab : Tab) (requestUrl : String) (frameUrl : String) (requestType : String) (requestRule : Option SourceRule) (eventId : Nat) : LogState × List Notification :=
  if st.openedFilteringLogsPage = 0 then (st, [])
  else
    match mapGet st.tabsInfoMap tab.tabId with
    | none => (st, [])
    | some tabInfo =>
      let filteringEvent : FilteringEvent :=
        { eventId := some eventId
          requestUrl := some requestUrl
          requestDomain := some (getDomainName requestUrl)
          frameUrl := some frameUrl
          frameDomain := some (getDomainName frameUrl)
          requestType := some requestType
          requestThirdParty := some (isThirdPartyRequest requestUrl frameUrl) }
      let filteringEvent :=
        match requestRule with
        | some r => addRuleToFilteringEvent filteringEvent r
        | none => filteringEvent
      pushFilteringEvent st tab.tabId tabInfo filteringEvent

/-- addCosmeticEvent of the source: gated on an opened log page, returns
early when no rule is supplied, then requires a known tab, builds the
element event with its rule snapshot and pushes it.  The element argument
is the string presentation of the element. -/
def addCosmeticEvent (st : LogState) (tab : Tab) (element : String) (frameUrl : String) (requestType : String) (requestRule : Option SourceRule) : LogState × List Notification :=
  if st.openedFilteringLogsPage = 0 then (st, [])
  else if requestRule.isNone then (st, [])
  else
    match mapGet st.tabsInfoMap tab.tabId with
    | none => (st, [])
    | some tabInfo =>
      let filteringEvent : FilteringEvent :=
        { element := some element
          frameUrl := some frameUrl
          frameDomain := some (getDomainName frameUrl)
          requestType := some requestType }
      let filteringEvent :=
        match requestRule with
        | some r => addRuleToFilteringEvent filteringEvent r
        | none => filteringEvent
      pushFilteringEvent st tab.tabId tabInfo filteringEvent

/-- addCookieEvent of the source: gated on an opened log page and a known
tab; when a cookie rule is supplied the snapshot additionally carries
isModifyingCookieRule and, when the rule has truthy stealthActions, the
event carries them too. -/
def addCookieEvent (st : LogState) (tab : Tab) (cookieName : String) (cookieValue : String) (cookieDomain : String) (requestType : String) (cookieRule : Option SourceRule) (isModifyingCookieRule : Bool) (thirdParty : Bool) : LogState × List Notification :=
  if st.openedFilteringLogsPage = 0 then (st, [])
  else
    match mapGet st.tabsInfoMap tab.tabId with
    | none => (st, [])
    | some tabInfo =>
      let filteringEvent : FilteringEvent :=
        { frameDomain := some cookieDomain
          requestType := some requestType
          requestThirdParty := some thirdParty
          cookieName := some cookieName
          cookieValue := some cookieValue }
      let filteringEvent :=
        match cookieRule with
        | some r =>
          let fe := addRuleToFilteringEvent filteringEvent r
          let fe := { fe with
            requestRule := fe.requestRule.map (fun rs => { rs with isModifyingCookieRule := some isModifyingCookieRule }) }
          if r.stealthActions ≠ 0 then { fe with stealthActions := some r.stealthActions } else fe
        | none => filteringEvent
      pushFilteringEvent st tab.tabId tabInfo filteringEvent

/-- The shared loop body of the three bind operations of the source: walk
the buffer from the last element backwards, update the first event whose
eventId matches, and stop there.  Returns the updated buffer and the
updated event when one was found. -/
def updateLastMatching (events : List FilteringEvent) (eventId : Nat) (f : FilteringEvent → FilteringEvent) : List FilteringEvent × Option FilteringEvent :=
  match events with
  | [] => ([], none)
  | e :: rest =>
    let r := updateLastMatching rest eventId f
    match r.2 with
    | some fe => (e :: r.1, some fe)
    | none =>
      if e.eventId = some eventId then
        (f e :: r.1, some (f e))
      else
        (e :: r.1, none)

/-- bindRuleToHttpRequestEvent of the source: gated on an opened log page,
a known tab and an existing buffer; updates the most recently appended
event with the given eventId via addRuleToFilteringEvent and publishes one
LOG_EVENT_UPDATED for it. -/
def bindRuleToHttpRequestEvent (st : LogState) (tab : Tab) (requestRule : SourceRule) (eventId : Nat) : LogState × List Notification :=
  if st.openedFilteringLogsPage = 0 then (st, [])
  else
    match mapGet st.tabsInfoMap tab.tabId with
    | none => (st, [])
    | some tabInfo =>
      match tabInfo.filteringEvents with
      | none => (st, [])
      | some events =>
        match (updateLastMatching events eventId (fun e => addRuleToFilteringEvent e requestRule)).2 with
        | none => (st, [])
        | some updated =>
          let newTabInfo := { tabInfo with filteringEvents := some (updateLastMatching events eventId (fun e => addRuleToFilteringEvent e requestRule)).1 }
          ({ st with tabsInfoMap := mapSet st.tabsInfoMap tab.tabId newTabInfo },
           [Notification.logEventUpdated newTabInfo updated])

/-- bindReplaceRulesToHttpRequestEvent of the source: same search loop,
updating via addReplaceRulesToFilteringEvent. -/
def bindReplaceRulesToHttpRequestEvent (st : LogState) (tab : Tab) (replaceRules : List SourceRule) (eventId : Nat) : LogState × List Notification :=
  if st.openedFilteringLogsPage = 0 then (st, [])
  else
    match mapGet st.tabsInfoMap tab.tabId with
    | none => (st, [])
    | some tabInfo =>
      match tabInfo.filteringEvents with
      | none => (st, [])
      | some events =>
        match (updateLastMatching events eventId (fun e => addReplaceRulesToFilteringEvent e replaceRules)).2 with
        | none => (st, [])
        | some updated =>
          let newTabInfo := { tabInfo with filteringEvents := some (updateLastMatching events eventId (fun e => addReplaceRulesToFilteringEvent e replaceRules)).1 }
          ({ st with tabsInfoMap := mapSet st.tabsInfoMap tab.tabId newTabInfo },
           [Notification.logEventUpdated newTabInfo updated])

/-- bindStealthActionsToHttpRequestEvent of the source: same search loop,
setting the stealthActions property of the matched event. -/
def bindStealthActionsToHttpRequestEvent (st : LogState) (tab : Tab) (actions : Nat) (eventId : Nat) : LogState × List Notification :=
  if st.openedFilteringLogsPage = 0 then (st, [])
  else
    match mapGet st.tabsInfoMap tab.tabId with
    | none => (st, [])
    | some tabInfo =>
      match tabInfo.filteringEvents with
      | none => (st, [])
      | some events =>
        match (updateLastMatching events eventId (fun e => { e with stealthActions := some actions })).2 with
        | none => (st, [])
        | some updated =>
          let newTabInfo := { tabInfo with filteringEvents := some (updateLastMatching events eventId (fun e => { e with stealthActions := some actions })).1 }
          ({ st with tabsInfoMap := mapSet st.tabsInfoMap tab.tabId newTabInfo },
           [Notification.logEventUpdated newTabInfo updated])

/-- clearEventsByTabId of the source: when the tab is known, deletes its
filteringEvents and publishes TAB_RESET with the tab info; otherwise does
nothing. -/
def clearEventsByTabId (st : LogState) (tabId : Int) : LogState × List Notification :=
  match mapGet st.tabsInfoMap tabId with
  | none => (st, [])
  | some tabInfo =>
    let newTabInfo := { tabInfo with filteringEvents := none }
    ({ st with tabsInfoMap := mapSet st.tabsInfoMap tabId newTabInfo },
     [Notification.tabReset newTabInfo])

/-- The splice inside synchronizeOpenTabs removing the first occurrence of
a tab id from the removal work list. -/
def removeFirst : List Int → Int → List Int
  | [], _ => []
  | x :: xs, k => if x = k then xs else x :: removeFirst xs k

/-- The first loop of synchronizeOpenTabs: for every open tab, add it when
unknown and update it when known, and strike its id from the removal list. -/
def syncPhase1 : LogState → List Notification → List Int → List Tab → LogState × List Notification × List Int
  | st, ns, toRemove, [] => (st, ns, toRemove)
  | st, ns, toRemove, openTab :: rest =>
    let r :=
      match mapGet st.tabsInfoMap openTab.tabId with
      | none => addTab st openTab
      | some _ => updateTab st openTab
    syncPhase1 r.1 (ns ++ r.2) (removeFirst toRemove openTab.tabId) rest

/-- The second loop of synchronizeOpenTabs: remove every id left on the
removal list. -/
def syncPhase2 : LogState → List Notification → List Int → LogState × List Notification
  | st, ns, [] => (st, ns)
  | st, ns, tabId :: rest =>
    let r := removeTabById st tabId
    syncPhase2 r.1 (ns ++ r.2) rest

/-- synchronizeOpenTabs of the source, given the host list of live tabs
(the adguard.tabs.getAll callback argument): reconciles tabsInfoMap with
the live list. -/
def synchronizeOpenTabs (st : LogState) (tabs : List Tab) : LogState × List Notification :=
  let r := syncPhase1 st [] (st.tabsInfoMap.map Prod.fst) tabs
  syncPhase2 r.1 r.2.1 r.2.2

/-- onOpenFilteringLogPage of the source: increments the page count. -/
def onOpenFilteringLogPage (st : LogState) : LogState × List Notification :=
  ({ st with openedFilteringLogsPage := st.openedFilteringLogsPage + 1 }, [])

/-- onCloseFilteringLogPage of the source: decrements the page count,
floored at 0 by Math.max, and when the result is 0 deletes the
filteringEvents of every tab info; no notification is published. -/
def onCloseFilteringLogPage (st : LogState) : LogState × List Notification :=
  if max (st.openedFilteringLogsPage - 1) 0 = 0 then
    ({ openedFilteringLogsPage := max (st.openedFilteringLogsPage - 1) 0
       tabsInfoMap := st.tabsInfoMap.map (fun p => (p.1, { p.2 with filteringEvents := none })) }, [])
  else
    ({ st with openedFilteringLogsPage := max (st.openedFilteringLogsPage - 1) 0 }, [])

/-- isOpen of the source. -/
def isOpen (st : LogState) : Bool :=
  st.openedFilteringLogsPage > 0

/-- The module state right after initialization: the background tab is
present when the host has the background tab feature, and no log page is
opened.  The initialization call to synchronizeOpenTabs is modelled as an
explicit first operation. -/
def initialState (hasBackgroundTab : Bool) : LogState :=
  { tabsInfoMap := if hasBackgroundTab then [(backgroundTabId, backgroundTab)] else []
    openedFilteringLogsPage := 0 }

/-- One call to any operation the module exposes or registers as a tab
event listener, with its arguments. -/
inductive Op where
  | addTab (tab : Tab)
  | removeTabById (tabId : Int)
  | updateTab (tab : Tab)
  | addHttpRequestEvent (tab : Tab) (requestUrl frameUrl requestType : String) (requestRule : Option SourceRule) (eventId : Nat)
  | addCosmeticEvent (tab : Tab) (element frameUrl requestType : String) (requestRule : Option SourceRule)
  | addCookieEvent (tab : Tab) (cookieName cookieValue cookieDomain requestType : String) (cookieRule : Option SourceRule) (isModifyingCookieRule : Bool) (thirdParty : Bool)
  | bindRuleToHttpRequestEvent (tab : Tab) (requestRule : SourceRule) (eventId : Nat)
  | bindReplaceRulesToHttpRequestEvent (tab : Tab) (replaceRules : List SourceRule) (eventId : Nat)
  | bindStealthActionsToHttpRequestEvent (tab : Tab) (actions : Nat) (eventId : Nat)
  | clearEventsByTabId (tabId : Int)
  | synchronizeOpenTabs (tabs : List Tab)
  | onOpenFilteringLogPage
  | onCloseFilteringLogPage

/-- Runs one operation on the state, returning the new state and the
notifications it published. -/
def applyOp (st : LogState) : Op → LogState × List Notification
  | Op.addTab tab => addTab st tab
  | Op.removeTabById tabId => removeTabById st tabId
  | Op.updateTab tab => updateTab st tab
  | Op.addHttpRequestEvent tab u fu ty r eid => addHttpRequestEvent st tab u fu ty r eid
  | Op.addCosmeticEvent tab el fu ty r => addCosmeticEvent st tab el fu ty r
  | Op.addCookieEvent tab cn cv cd ty r m tp => addCookieEvent st tab cn cv cd ty r m tp
  | Op.bindRuleToHttpRequestEvent tab r eid => bindRuleToHttpRequestEvent st tab r eid
  | Op.bindReplaceRulesToHttpRequestEvent tab rs eid => bindReplaceRulesToHttpRequestEvent st tab rs eid
  | Op.bindStealthActionsToHttpRequestEvent tab a eid => bindStealthActionsToHttpRequestEvent st tab a eid
  | Op.clearEventsByTabId tabId => clearEventsByTabId st tabId
  | Op.synchronizeOpenTabs tabs => synchronizeOpenTabs st tabs
  | Op.onOpenFilteringLogPage => onOpenFilteringLogPage st
  | Op.onCloseFilteringLogPage => onCloseFilteringLogPage st

/-- Runs a sequence of operations, keeping only the state. -/
def runOps (st : LogState) (ops : List Op) : LogState :=
  ops.foldl (fun s op => (applyOp s op).1) st

/-- A tab info whose buffer, when present, is within capacity. -/
def tabBounded (t : TabInfo) : Prop :=
  ∀ evs, t.filteringEvents = some evs → evs.length ≤ REQUESTS_SIZE_PER_TAB

/-- Every tab info of the map has a bounded buffer. -/
def mapBounded (m : List (Int × TabInfo)) : Prop :=
  ∀ p ∈ m, tabBounded p.2

/-! ### Concrete example values used to evaluate the theorems -/

/-- A sample live tab with id 7. -/
def exTab7 : Tab := { tabId := 7, title := "t", url := none }

/-- A sample live tab carrying the background tab id. -/
def exTabBg : Tab := { tabId := backgroundTabId, title := "bg", url := none }

/-- An older buffered event with correlation id 5. -/
def exEvt0 : FilteringEvent := { eventId := some 5, requestUrl := some "a" }

/-- A newer buffered event sharing correlation id 5. -/
def exEvt1 : FilteringEvent := { eventId := some 5, requestUrl := some "b" }

/-- Tab info for tab 7 whose buffer holds the two sample events. -/
def exTabInfo7 : TabInfo := { tabId := 7, title := "t", filteringEvents := some [exEvt0, exEvt1] }

/-- A state with one observer open and tab 7 registered. -/
def exStateActive : LogState := { tabsInfoMap := [(7, exTabInfo7)], openedFilteringLogsPage := 1 }

/-- The same registry with no observer open. -/
def exStateGated : LogState := { tabsInfoMap := [(7, exTabInfo7)], openedFilteringLogsPage := 0 }

/-- A sample network rule. -/
def exRule : SourceRule :=
  { filterId := 1, ruleText := "x", ruleClass := RuleClass.url false false none false }

/-! ### Association list lemmas -/

theorem mapGet_mapSet_self (m : List (Int × TabInfo)) (k : Int) (v : TabInfo) :
    mapGet (mapSet m k v) k = some v := by
  induction m with
  | nil => simp [mapGet, mapSet]
  | cons p rest ih =>
    simp only [mapSet]
    by_cases h : p.1 = k
    · simp [mapGet, h]
    · simp [mapGet, h, ih]

theorem mapGet_mapSet_ne (m : List (Int × TabInfo)) (k k' : Int) (v : TabInfo)
    (h : k' ≠ k) : mapGet (mapSet m k v) k' = mapGet m k' := by
  have hks : ¬ (k = k') := fun hh => h hh.symm
  induction m with
  | nil =>
    simp only [mapSet, mapGet]
    rw [if_neg hks]
  | cons p rest ih =>
    simp only [mapSet]
    by_cases hp : p.1 = k
    · rw [if_pos hp]
      have hp' : ¬ (p.1 = k') := by rw [hp]; exact hks
      simp only [mapGet]
      rw [if_neg hks, if_neg hp']
    · rw [if_neg hp]
      simp only [mapGet]
      by_cases hk : p.1 = k'
      · rw [if_pos hk, if_pos hk]
      · rw [if_neg hk, if_neg hk, ih]

theorem mem_mapSet (m : List (Int × TabInfo)) (k : Int) (v : TabInfo)
    (p : Int × TabInfo) (hp : p ∈ mapSet m k v) : p = (k, v) ∨ p ∈ m := by
  induction m with
  | nil => simpa [mapSet] using hp
  | cons q rest ih =>
    simp only [mapSet] at hp
    by_cases h : q.1 = k
    · simp only [if_pos h, List.mem_cons] at hp
      rcases hp with hp | hp
      · exact Or.inl hp
      · exact Or.inr (List.mem_cons_of_mem _ hp)
    · simp only [if_neg h, List.mem_cons] at hp
      rcases hp with hp | hp
      · exact Or.inr (by simp [hp])
      · rcases ih hp with hh | hh
        · exact Or.inl hh
        · exact Or.inr (List.mem_cons_of_mem _ hh)

theorem keys_mapSet_subset (m : List (Int × TabInfo)) (k : Int) (v : TabInfo)
    (x : Int) (hx : x ∈ (mapSet m k v).map Prod.fst) :
    x ∈ m.map Prod.fst ∨ x = k := by
  rcases List.mem_map.mp hx with ⟨p, hp, hpx⟩
  rcases mem_mapSet m k v p hp with h | h
  · right; rw [← hpx, h]
  · left; exact List.mem_map.mpr ⟨p, h, hpx⟩

theorem keys_mapSet_mono (m : List (Int × TabInfo)) (k : Int) (v : TabInfo)
    (x : Int) (hx : x ∈ m.map Prod.fst) : x ∈ (mapSet m k v).map Prod.fst := by
  induction m with
  | nil => simp at hx
  | cons p rest ih =>
    simp only [mapSet]
    by_cases h : p.1 = k
    · rw [if_pos h]
      simp only [List.map_cons, List.mem_cons] at hx ⊢
      rcases hx with hx | hx
      · left; rw [hx, h]
      · right; exact hx
    · rw [if_neg h]
      simp only [List.map_cons, List.mem_cons] at hx ⊢
      rcases hx with hx | hx
      · exact Or.inl hx
      · exact Or.inr (ih hx)

theorem mem_keys_mapSet_self (m : List (Int × TabInfo)) (k : Int) (v : TabInfo) :
    k ∈ (mapSet m k v).map Prod.fst := by
  induction m with
  | nil => simp [mapSet]
  | cons p rest ih =>
    simp only [mapSet]
    by_cases h : p.1 = k
    · rw [if_pos h]
      simp
    · rw [if_neg h]
      simp only [List.map_cons, List.mem_cons]
      exact Or.inr ih

theorem keys_nodup_mapSet (m : List (Int × TabInfo)) (k : Int) (v : TabInfo)
    (h : (m.map Prod.fst).Nodup) : ((mapSet m k v).map Prod.fst).Nodup := by
  induction m with
  | nil => simp [mapSet]
  | cons p rest ih =>
    simp only [List.map_cons, List.nodup_cons] at h
    simp only [mapSet]
    by_cases hp : p.1 = k
    · rw [if_pos hp]
      simp only [List.map_cons, List.nodup_cons]
      exact ⟨by rw [← hp]; exact h.1, h.2⟩
    · rw [if_neg hp]
      simp only [List.map_cons, List.nodup_cons]
      refine ⟨fun hc => ?_, ih h.2⟩
      rcases keys_mapSet_subset rest k v p.1 hc with hc' | hc'
      · exact h.1 hc'
      · exact hp hc'

theorem mapDelete_sublist (m : List (Int × TabInfo)) (k : Int) :
    (mapDelete m k).Sublist m := by
  induction m with
  | nil => simp [mapDelete]
  | cons p rest ih =>
    simp only [mapDelete]
    by_cases h : p.1 = k
    · simp only [if_pos h]
      exact ih.cons p
    · simp only [if_neg h]
      exact ih.cons₂ p

theorem mem_mapDelete (m : List (Int × TabInfo)) (k : Int) (p : Int × TabInfo)
    (hp : p ∈ mapDelete m k) : p ∈ m :=
  (mapDelete_sublist m k).mem hp

theorem keys_mapDelete_subset (m : List (Int × TabInfo)) (k : Int) (x : Int)
    (hx : x ∈ (mapDelete m k).map Prod.fst) : x ∈ m.map Prod.fst := by
  rcases List.mem_map.mp hx with ⟨p, hp, hpx⟩
  exact List.mem_map.mpr ⟨p, mem_mapDelete m k p hp, hpx⟩

theorem keys_nodup_mapDelete (m : List (Int × TabInfo)) (k : Int)
    (h : (m.map Prod.fst).Nodup) : ((mapDelete m k).map Prod.fst).Nodup :=
  ((mapDelete_sublist m k).map Prod.fst).nodup h

theorem not_mem_keys_mapDelete_self (m : List (Int × TabInfo)) (k : Int) :
    k ∉ (mapDelete m k).map Prod.fst := by
  induction m with
  | nil => simp [mapDelete]
  | cons p rest ih =>
    simp only [mapDelete]
    by_cases h : p.1 = k
    · rw [if_pos h]
      exact ih
    · rw [if_neg h]
      simp only [List.map_cons, List.mem_cons]
      rintro (hc | hc)
      · exact h hc.symm
      · exact ih hc

theorem mem_keys_mapDelete (m : List (Int × TabInfo)) (k x : Int)
    (hx : x ∈ m.map Prod.fst) (hne : x ≠ k) : x ∈ (mapDelete m k).map Prod.fst := by
  induction m with
  | nil => simp at hx
  | cons p rest ih =>
    simp only [List.map_cons, List.mem_cons] at hx
    simp only [mapDelete]
    by_cases h : p.1 = k
    · rw [if_pos h]
      rcases hx with hx | hx
      · exact absurd (hx.trans h) hne
      · exact ih hx
    · rw [if_neg h]
      simp only [List.map_cons, List.mem_cons]
      rcases hx with hx | hx
      · exact Or.inl hx
      · exact Or.inr (ih hx)

theorem mapGet_mapDelete_ne (m : List (Int × TabInfo)) (k k' : Int)
    (h : k' ≠ k) : mapGet (mapDelete m k) k' = mapGet m k' := by
  induction m with
  | nil => simp [mapDelete]
  | cons p rest ih =>
    simp only [mapDelete]
    by_cases hp : p.1 = k
    · rw [if_pos hp]
      have hp' : ¬ (p.1 = k') := by rw [hp]; exact fun hh => h hh.symm
      simp only [mapGet]
      rw [if_neg hp', ih]
    · rw [if_neg hp]
      simp only [mapGet]
      by_cases hk : p.1 = k'
      · rw [if_pos hk, if_pos hk]
      · rw [if_neg hk, if_neg hk, ih]

theorem mapGet_eq_none_iff (m : List (Int × TabInfo)) (k : Int) :
    mapGet m k = none ↔ k ∉ m.map Prod.fst := by
  induction m with
  | nil => simp [mapGet]
  | cons p rest ih =>
    simp only [mapGet, List.map_cons, List.mem_cons]
    by_cases h : p.1 = k
    · rw [if_pos h]
      simp [h]
    · rw [if_neg h]
      rw [ih]
      constructor
      · rintro hk (hc | hc)
        · exact h hc.symm
        · exact hk hc
      · intro hk hc
        exact hk (Or.inr hc)

theorem mapGet_mem (m : List (Int × TabInfo)) (k : Int) (v : TabInfo)
    (h : mapGet m k = some v) : (k, v) ∈ m := by
  induction m with
  | nil => simp [mapGet] at h
  | cons p rest ih =>
    simp only [mapGet] at h
    by_cases hp : p.1 = k
    · rw [if_pos hp] at h
      have hv : p.2 = v := by injection h
      have hkv : (k, v) = p := by
        cases p
        simp_all
      rw [hkv]
      exact List.mem_cons_self _ _
    · rw [if_neg hp] at h
      exact List.mem_cons_of_mem _ (ih h)

theorem mapGet_map_clear (m : List (Int × TabInfo)) (k : Int) :
    mapGet (m.map (fun p => (p.1, { p.2 with filteringEvents := none }))) k =
      (mapGet m k).map (fun t => { t with filteringEvents := none }) := by
  induction m with
  | nil => simp [mapGet]
  | cons p rest ih =>
    simp only [List.map_cons, mapGet]
    by_cases h : p.1 = k
    · rw [if_pos h, if_pos h]
      simp
    · rw [if_neg h, if_neg h, ih]

/-! ### Buffer lemmas -/

theorem evictPush_ne_nil (events : List FilteringEvent) (fe : FilteringEvent) :
    evictPush events fe ≠ [] := by
  unfold evictPush
  by_cases h : REQUESTS_SIZE_PER_TAB < (events ++ [fe]).length
  · rw [if_pos h]
    intro hc
    have hlen := congrArg List.length hc
    rw [List.length_eraseIdx] at hlen
    simp only [List.length_append, List.length_cons, List.length_nil] at hlen h
    simp only [REQUESTS_SIZE_PER_TAB] at h
    split at hlen <;> omega
  · rw [if_neg h]
    simp

theorem evictPush_head? (events : List FilteringEvent) (fe : FilteringEvent)
    (h : events ≠ []) : (evictPush events fe).head? = events.head? := by
  rcases events with _ | ⟨x, rest⟩
  · exact absurd rfl h
  · unfold evictPush
    by_cases hlen : REQUESTS_SIZE_PER_TAB < ((x :: rest) ++ [fe]).length
    · simp only [if_pos hlen]
      simp [List.eraseIdx]
    · simp only [if_neg hlen]
      simp

theorem evictPush_length (events : List FilteringEvent) (fe : FilteringEvent) :
    (evictPush events fe).length =
      if REQUESTS_SIZE_PER_TAB < events.length + 1 then events.length else events.length + 1 := by
  unfold evictPush
  by_cases h : REQUESTS_SIZE_PER_TAB < (events ++ [fe]).length
  · have h' : REQUESTS_SIZE_PER_TAB < events.length + 1 := by simpa using h
    rw [if_pos h, if_pos h', List.length_eraseIdx]
    simp only [List.length_append, List.length_cons, List.length_nil]
    have hcap : REQUESTS_SIZE_PER_TAB = 1000 := rfl
    rw [hcap] at h'
    rw [if_pos (by omega : 1 < events.length + 1)]
    omega
  · have h' : ¬ REQUESTS_SIZE_PER_TAB < events.length + 1 := by simpa using h
    rw [if_neg h, if_neg h']
    simp

theorem evictPush_length_le (events : List FilteringEvent) (fe : FilteringEvent)
    (h : events.length ≤ REQUESTS_SIZE_PER_TAB) :
    (evictPush events fe).length ≤ REQUESTS_SIZE_PER_TAB := by
  rw [evictPush_length]
  split <;> omega

theorem updateLastMatching_length (events : List FilteringEvent) (eventId : Nat)
    (f : FilteringEvent → FilteringEvent) :
    (updateLastMatching events eventId f).1.length = events.length := by
  induction events with
  | nil => simp [updateLastMatching]
  | cons e rest ih =>
    simp only [updateLastMatching]
    rcases h : (updateLastMatching rest eventId f).2 with _ | fe
    · by_cases he : e.eventId = some eventId <;> simp [he, ih]
    · simp [ih]

theorem updateLastMatching_no_match (events : List FilteringEvent) (eventId : Nat)
    (f : FilteringEvent → FilteringEvent)
    (h : ∀ x ∈ events, x.eventId ≠ some eventId) :
    updateLastMatching events eventId f = (events, none) := by
  induction events with
  | nil => simp [updateLastMatching]
  | cons e rest ih =>
    have hrest : updateLastMatching rest eventId f = (rest, none) :=
      ih (fun x hx => h x (List.mem_cons_of_mem _ hx))
    have he : ¬ e.eventId = some eventId := h e (List.mem_cons_self _ _)
    simp [updateLastMatching, hrest, he]

theorem updateLastMatching_split (l₁ l₂ : List FilteringEvent) (e : FilteringEvent)
    (eventId : Nat) (f : FilteringEvent → FilteringEvent)
    (he : e.eventId = some eventId)
    (hl₂ : ∀ x ∈ l₂, x.eventId ≠ some eventId) :
    updateLastMatching (l₁ ++ e :: l₂) eventId f = (l₁ ++ f e :: l₂, some (f e)) := by
  induction l₁ with
  | nil =>
    have hrest : updateLastMatching l₂ eventId f = (l₂, none) :=
      updateLastMatching_no_match l₂ eventId f hl₂
    simp [updateLastMatching, hrest, he]
  | cons x rest ih =>
    simp [updateLastMatching, ih]

theorem foldl_evictPush_head? (es : List FilteringEvent) (buf : List FilteringEvent)
    (h : buf ≠ []) : (List.foldl evictPush buf es).head? = buf.head? := by
  induction es generalizing buf with
  | nil => simp
  | cons e rest ih =>
    simp only [List.foldl_cons]
    rw [ih (evictPush buf e) (evictPush_ne_nil buf e)]
    exact evictPush_head? buf e h

theorem foldl_evictPush_length (es : List FilteringEvent) (buf : List FilteringEvent)
    (h : buf.length ≤ REQUESTS_SIZE_PER_TAB) :
    (List.foldl evictPush buf es).length = min (buf.length + es.length) REQUESTS_SIZE_PER_TAB := by
  induction es generalizing buf with
  | nil =>
    simp only [List.foldl_nil, List.length_nil, Nat.add_zero]
    simp only [REQUESTS_SIZE_PER_TAB] at h ⊢
    omega
  | cons e rest ih =>
    simp only [List.foldl_cons, List.length_cons]
    rw [ih (evictPush buf e) (evictPush_length_le buf e h)]
    rw [evictPush_length]
    simp only [REQUESTS_SIZE_PER_TAB] at h ⊢
    split <;> omega

/-! ### Claim theorems -/

/-- C2: when an append overflows the capacity the element at index 1 is
removed, never index 0; appending 1001 events to an initially empty buffer
leaves the record at index 0 equal to the first-ever appended record and
the buffer length equal to 1000. -/
theorem c2_eviction_spares_first_record (es : List FilteringEvent)
    (h : es.length = 1001) :
    (List.foldl evictPush [] es).length = 1000 ∧
    (List.foldl evictPush [] es).head? = es.head? ∧
    ∀ (buf : List FilteringEvent) (fe : FilteringEvent),
      REQUESTS_SIZE_PER_TAB < (buf ++ [fe]).length →
        evictPush buf fe = (buf ++ [fe]).eraseIdx 1 := by
  rcases es with _ | ⟨e, rest⟩
  · simp at h
  · have hrest : rest.length = 1000 := by
      simp only [List.length_cons] at h
      omega
    have h1 : evictPush [] e = [e] := by
      unfold evictPush
      rw [if_neg (by simp [REQUESTS_SIZE_PER_TAB])]
      simp
    refine ⟨?_, ?_, ?_⟩
    · simp only [List.foldl_cons, h1]
      rw [foldl_evictPush_length rest [e] (by simp [REQUESTS_SIZE_PER_TAB]), hrest]
      simp only [List.length_cons, List.length_nil, REQUESTS_SIZE_PER_TAB]
      omega
    · simp only [List.foldl_cons, h1]
      rw [foldl_evictPush_head? rest [e] (by simp)]
      simp
    · intro buf fe hlen
      unfold evictPush
      rw [if_pos hlen]

/-- Witness for C2: a concrete list of 1001 events. -/
theorem c2_eviction_spares_first_record_witness :
    ((List.range 1001).map (fun i => ({ eventId := some i } : FilteringEvent))).length = 1001 ∧
    ((List.foldl evictPush [] ((List.range 1001).map (fun i => ({ eventId := some i } : FilteringEvent)))).length = 1000 ∧
     (List.foldl evictPush [] ((List.range 1001).map (fun i => ({ eventId := some i } : FilteringEvent)))).head? =
       ((List.range 1001).map (fun i => ({ eventId := some i } : FilteringEvent))).head? ∧
     ∀ (buf : List FilteringEvent) (fe : FilteringEvent),
       REQUESTS_SIZE_PER_TAB < (buf ++ [fe]).length →
         evictPush buf fe = (buf ++ [fe]).eraseIdx 1) :=
  ⟨by simp, c2_eviction_spares_first_record _ (by simp)⟩

/-- C4: while the observer reference count is 0, every record and
enrichment operation leaves the registry, the buffers and the whole state
unchanged and publishes no notification. -/
theorem c4_gated_off_operations_are_no_ops (st : LogState)
    (h : st.openedFilteringLogsPage = 0)
    (tab : Tab) (u fu ty el cn cv cd : String) (r : Option SourceRule)
    (r1 : SourceRule) (rs : List SourceRule) (a eid : Nat) (m tp : Bool) :
    addHttpRequestEvent st tab u fu ty r eid = (st, []) ∧
    addCosmeticEvent st tab el fu ty r = (st, []) ∧
    addCookieEvent st tab cn cv cd ty r m tp = (st, []) ∧
    bindRuleToHttpRequestEvent st tab r1 eid = (st, []) ∧
    bindReplaceRulesToHttpRequestEvent st tab rs eid = (st, []) ∧
    bindStealthActionsToHttpRequestEvent st tab a eid = (st, []) := by
  refine ⟨?_, ?_, ?_, ?_, ?_, ?_⟩ <;>
    simp [addHttpRequestEvent, addCosmeticEvent, addCookieEvent,
      bindRuleToHttpRequestEvent, bindReplaceRulesToHttpRequestEvent,
      bindStealthActionsToHttpRequestEvent, h]

/-- Witness for C4 at a concrete gated-off state. -/
theorem c4_gated_off_operations_are_no_ops_witness :
    exStateGated.openedFilteringLogsPage = 0 ∧
    (addHttpRequestEvent exStateGated exTab7 "u" "f" "ty" (some exRule) 5 = (exStateGated, []) ∧
     addCosmeticEvent exStateGated exTab7 "el" "f" "ty" (some exRule) = (exStateGated, []) ∧
     addCookieEvent exStateGated exTab7 "cn" "cv" "cd" "ty" (some exRule) true false = (exStateGated, []) ∧
     bindRuleToHttpRequestEvent exStateGated exTab7 exRule 5 = (exStateGated, []) ∧
     bindReplaceRulesToHttpRequestEvent exStateGated exTab7 [exRule] 5 = (exStateGated, []) ∧
     bindStealthActionsToHttpRequestEvent exStateGated exTab7 3 5 = (exStateGated, [])) :=
  ⟨rfl, c4_gated_off_operations_are_no_ops exStateGated rfl exTab7 "u" "f" "ty" "el" "cn" "cv" "cd"
    (some exRule) exRule [exRule] 3 5 true false⟩

/-- C10: the per-tab reset is independent of the observer gate: for every
state, when the tab is known its buffer is removed and one TAB_RESET is
published; when the tab is unknown nothing changes and nothing is
published. -/
theorem c10_clear_events_independent_of_gate (st : LogState) (tabId : Int) :
    (∀ t, mapGet st.tabsInfoMap tabId = some t →
      clearEventsByTabId st tabId =
        ({ st with tabsInfoMap := mapSet st.tabsInfoMap tabId { t with filteringEvents := none } },
         [Notification.tabReset { t with filteringEvents := none }])) ∧
    (mapGet st.tabsInfoMap tabId = none → clearEventsByTabId st tabId = (st, [])) := by
  constructor
  · intro t ht
    simp [clearEventsByTabId, ht]
  · intro ht
    simp [clearEventsByTabId, ht]

/-- Witness for C10 at a concrete gated-off state with a known tab. -/
theorem c10_clear_events_independent_of_gate_witness :
    clearEventsByTabId exStateGated 7 =
      ({ exStateGated with
          tabsInfoMap := mapSet exStateGated.tabsInfoMap 7 { exTabInfo7 with filteringEvents := none } },
       [Notification.tabReset { exTabInfo7 with filteringEvents := none }]) :=
  (c10_clear_events_independent_of_gate exStateGated 7).1 exTabInfo7 rfl

/-- C5 counterexample: closing the last observer on a state with one
registered session brings the count to exactly 0 and clears the buffer,
but publishes no notification at all, not one TAB_RESET per session as
the claim requires. -/
theorem c5_counterexample_no_reset_notification :
    (onCloseFilteringLogPage exStateActive).1.openedFilteringLogsPage = 0 ∧
    exStateActive.tabsInfoMap.length = 1 ∧
    (onCloseFilteringLogPage exStateActive).2 = [] ∧
    (onCloseFilteringLogPage exStateActive).2.length ≠ exStateActive.tabsInfoMap.length := by
  refine ⟨by decide, by decide, by decide, by decide⟩

/-- C5 amended: onCloseFilteringLogPage decrements the observer count with
a floor at 0 and publishes no notification; exactly when the floored count
is 0, every registered session keeps its entry but loses its buffer. -/
theorem c5_close_observer_floors_and_clears (st : LogState) :
    (onCloseFilteringLogPage st).1.openedFilteringLogsPage = max (st.openedFilteringLogsPage - 1) 0 ∧
    (onCloseFilteringLogPage st).2 = [] ∧
    (∀ id t, mapGet st.tabsInfoMap id = some t →
      mapGet (onCloseFilteringLogPage st).1.tabsInfoMap id =
        some (if max (st.openedFilteringLogsPage - 1) 0 = 0 then { t with filteringEvents := none } else t)) := by
  refine ⟨?_, ?_, ?_⟩
  · by_cases h : max (st.openedFilteringLogsPage - 1) 0 = 0 <;>
      simp [onCloseFilteringLogPage, h]
  · by_cases h : max (st.openedFilteringLogsPage - 1) 0 = 0 <;>
      simp [onCloseFilteringLogPage, h]
  · intro id t ht
    by_cases h : max (st.openedFilteringLogsPage - 1) 0 = 0
    · simp only [onCloseFilteringLogPage, if_pos h]
      simp [mapGet_map_clear, ht]
    · simp only [onCloseFilteringLogPage, if_neg h]
      simp [ht]

/-- Witness for C5 amended at the concrete one-observer state. -/
theorem c5_close_observer_floors_and_clears_witness :
    mapGet (onCloseFilteringLogPage exStateActive).1.tabsInfoMap 7 =
      some (if max (exStateActive.openedFilteringLogsPage - 1) 0 = 0
            then { exTabInfo7 with filteringEvents := none } else exTabInfo7) :=
  (c5_close_observer_floors_and_clears exStateActive).2.2 7 exTabInfo7 rfl

/-- C6: closing the last observer keeps every session and its metadata;
only the buffer is emptied: a session registered before the close is still
returned afterwards, with the same id and title and an absent buffer. -/
theorem c6_close_preserves_session_metadata (st : LogState) (id : Int) (t : TabInfo)
    (h : mapGet st.tabsInfoMap id = some t)
    (hlast : max (st.openedFilteringLogsPage - 1) 0 = 0) :
    getFilteringInfoByTabId (onCloseFilteringLogPage st).1 id = some { t with filteringEvents := none } ∧
    ({ t with filteringEvents := none } : TabInfo).tabId = t.tabId ∧
    ({ t with filteringEvents := none } : TabInfo).title = t.title ∧
    ({ t with filteringEvents := none } : TabInfo).filteringEvents = none := by
  refine ⟨?_, rfl, rfl, rfl⟩
  simp only [getFilteringInfoByTabId, onCloseFilteringLogPage, if_pos hlast]
  simp [mapGet_map_clear, h]

/-- Witness for C6 at the concrete one-observer state. -/
theorem c6_close_preserves_session_metadata_witness :
    getFilteringInfoByTabId (onCloseFilteringLogPage exStateActive).1 7 =
      some { exTabInfo7 with filteringEvents := none } ∧
    ({ exTabInfo7 with filteringEvents := none } : TabInfo).tabId = exTabInfo7.tabId ∧
    ({ exTabInfo7 with filteringEvents := none } : TabInfo).title = exTabInfo7.title ∧
    ({ exTabInfo7 with filteringEvents := none } : TabInfo).filteringEvents = none :=
  c6_close_preserves_session_metadata exStateActive 7 exTabInfo7 rfl (by decide)

/-- C3: with an observer open and a known session, each of the three
enrichment operations rewrites exactly the most recently appended record
whose eventId matches the correlation id, leaves every other record
untouched, and publishes exactly one LOG_EVENT_UPDATED for the rewritten
record. -/
theorem c3_enrichment_updates_most_recent_match
    (st : LogState) (tab : Tab) (tabInfo : TabInfo)
    (l₁ l₂ : List FilteringEvent) (e : FilteringEvent) (eid : Nat)
    (rule : SourceRule) (rules : List SourceRule) (actions : Nat)
    (hopen : ¬ st.openedFilteringLogsPage = 0)
    (htab : mapGet st.tabsInfoMap tab.tabId = some tabInfo)
    (hbuf : tabInfo.filteringEvents = some (l₁ ++ e :: l₂))
    (he : e.eventId = some eid)
    (hl₂ : ∀ x ∈ l₂, x.eventId ≠ some eid) :
    bindRuleToHttpRequestEvent st tab rule eid =
      ({ st with tabsInfoMap := mapSet st.tabsInfoMap tab.tabId { tabInfo with filteringEvents := some (l₁ ++ addRuleToFilteringEvent e rule :: l₂) } },
       [Notification.logEventUpdated { tabInfo with filteringEvents := some (l₁ ++ addRuleToFilteringEvent e rule :: l₂) } (addRuleToFilteringEvent e rule)]) ∧
    bindReplaceRulesToHttpRequestEvent st tab rules eid =
      ({ st with tabsInfoMap := mapSet st.tabsInfoMap tab.tabId { tabInfo with filteringEvents := some (l₁ ++ addReplaceRulesToFilteringEvent e rules :: l₂) } },
       [Notification.logEventUpdated { tabInfo with filteringEvents := some (l₁ ++ addReplaceRulesToFilteringEvent e rules :: l₂) } (addReplaceRulesToFilteringEvent e rules)]) ∧
    bindStealthActionsToHttpRequestEvent st tab actions eid =
      ({ st with tabsInfoMap := mapSet st.tabsInfoMap tab.tabId { tabInfo with filteringEvents := some (l₁ ++ ({ e with stealthActions := some actions }) :: l₂) } },
       [Notification.logEventUpdated { tabInfo with filteringEvents := some (l₁ ++ ({ e with stealthActions := some actions }) :: l₂) } ({ e with stealthActions := some actions })]) := by
  refine ⟨?_, ?_, ?_⟩
  · simp [bindRuleToHttpRequestEvent, hopen, htab, hbuf,
      updateLastMatching_split l₁ l₂ e eid (fun x => addRuleToFilteringEvent x rule) he hl₂]
  · simp [bindReplaceRulesToHttpRequestEvent, hopen, htab, hbuf,
      updateLastMatching_split l₁ l₂ e eid (fun x => addReplaceRulesToFilteringEvent x rules) he hl₂]
  · simp [bindStealthActionsToHttpRequestEvent, hopen, htab, hbuf,
      updateLastMatching_split l₁ l₂ e eid (fun x => { x with stealthActions := some actions }) he hl₂]

/-- Witness for C3: a buffer holding two records that share eventId 5;
only the newer one is rewritten. -/
theorem c3_enrichment_updates_most_recent_match_witness :
    bindRuleToHttpRequestEvent exStateActive exTab7 exRule 5 =
      ({ exStateActive with tabsInfoMap := mapSet exStateActive.tabsInfoMap exTab7.tabId { exTabInfo7 with filteringEvents := some ([exEvt0] ++ addRuleToFilteringEvent exEvt1 exRule :: []) } },
       [Notification.logEventUpdated { exTabInfo7 with filteringEvents := some ([exEvt0] ++ addRuleToFilteringEvent exEvt1 exRule :: []) } (addRuleToFilteringEvent exEvt1 exRule)]) :=
  (c3_enrichment_updates_most_recent_match exStateActive exTab7 exTabInfo7 [exEvt0] [] exEvt1 5
    exRule [exRule] 3 (by decide) rfl rfl rfl (by simp)).1

/-- C9 counterexample: with an observer open and a known session,
addCosmeticEvent with no rule appends nothing and publishes nothing,
although the claim requires a record to still be appended. -/
theorem c9_counterexample_cosmetic_without_rule :
    0 < exStateActive.openedFilteringLogsPage ∧
    mapGet exStateActive.tabsInfoMap exTab7.tabId = some exTabInfo7 ∧
    addCosmeticEvent exStateActive exTab7 "el" "f" "ty" none = (exStateActive, []) := by
  refine ⟨by decide, rfl, by decide⟩

/-- C9 amended: with an observer open and a known session, the network
request and cookie record operations append a record that embeds the
copied rule snapshot when a rule is supplied and carries no snapshot when
none is; the cosmetic operation appends the record with its snapshot when
a rule is supplied but appends nothing when no rule is supplied. -/
theorem c9_record_operations_rule_snapshot (st : LogState) (tab : Tab) (tabInfo : TabInfo)
    (u fu ty el cn cv cd : String) (r : SourceRule) (eid : Nat) (m tp : Bool)
    (hopen : ¬ st.openedFilteringLogsPage = 0)
    (htab : mapGet st.tabsInfoMap tab.tabId = some tabInfo) :
    addHttpRequestEvent st tab u fu ty (some r) eid =
      pushFilteringEvent st tab.tabId tabInfo
        { eventId := some eid, requestUrl := some u,
          requestDomain := some (getDomainName u), frameUrl := some fu,
          frameDomain := some (getDomainName fu), requestType := some ty,
          requestThirdParty := some (isThirdPartyRequest u fu),
          requestRule := some (appendProperties {} r) } ∧
    addHttpRequestEvent st tab u fu ty none eid =
      pushFilteringEvent st tab.tabId tabInfo
        { eventId := some eid, requestUrl := some u,
          requestDomain := some (getDomainName u), frameUrl := some fu,
          frameDomain := some (getDomainName fu), requestType := some ty,
          requestThirdParty := some (isThirdPartyRequest u fu) } ∧
    addCosmeticEvent st tab el fu ty (some r) =
      pushFilteringEvent st tab.tabId tabInfo
        { element := some el, frameUrl := some fu,
          frameDomain := some (getDomainName fu), requestType := some ty,
          requestRule := some (appendProperties {} r) } ∧
    addCosmeticEvent st tab el fu ty none = (st, []) ∧
    addCookieEvent st tab cn cv cd ty (some r) m tp =
      pushFilteringEvent st tab.tabId tabInfo
        { frameDomain := some cd, requestType := some ty,
          requestThirdParty := some tp, cookieName := some cn, cookieValue := some cv,
          requestRule := some { appendProperties {} r with isModifyingCookieRule := some m },
          stealthActions := if r.stealthActions ≠ 0 then some r.stealthActions else none } ∧
    addCookieEvent st tab cn cv cd ty none m tp =
      pushFilteringEvent st tab.tabId tabInfo
        { frameDomain := some cd, requestType := some ty,
          requestThirdParty := some tp, cookieName := some cn, cookieValue := some cv } := by
  refine ⟨?_, ?_, ?_, ?_, ?_, ?_⟩
  · simp [addHttpRequestEvent, hopen, htab, addRuleToFilteringEvent]
  · simp [addHttpRequestEvent, hopen, htab]
  · simp [addCosmeticEvent, hopen, htab, addRuleToFilteringEvent]
  · simp [addCosmeticEvent, hopen]
  · by_cases hs : r.stealthActions = 0 <;>
      simp [addCookieEvent, hopen, htab, addRuleToFilteringEvent, hs]
  · simp [addCookieEvent, hopen, htab]

/-- Witness for C9 amended at the concrete active state. -/
theorem c9_record_operations_rule_snapshot_witness :
    (¬ exStateActive.openedFilteringLogsPage = 0) ∧
    addHttpRequestEvent exStateActive exTab7 "u" "f" "ty" (some exRule) 9 =
      pushFilteringEvent exStateActive exTab7.tabId exTabInfo7
        { eventId := some 9, requestUrl := some "u",
          requestDomain := some (getDomainName "u"), frameUrl := some "f",
          frameDomain := some (getDomainName "f"), requestType := some "ty",
          requestThirdParty := some (isThirdPartyRequest "u" "f"),
          requestRule := some (appendProperties {} exRule) } :=
  ⟨by decide,
   (c9_record_operations_rule_snapshot exStateActive exTab7 exTabInfo7 "u" "f" "ty" "el" "cn" "cv" "cd"
     exRule 9 true false (by decide) rfl).1⟩

/-! ### State invariant: bounded buffers and unique keys -/

/-- The invariant carried through every operation: every buffer is within
capacity and the registry has one entry per tab id. -/
def goodState (st : LogState) : Prop :=
  mapBounded st.tabsInfoMap ∧ (st.tabsInfoMap.map Prod.fst).Nodup

theorem tabBounded_of_mapGet (m : List (Int × TabInfo)) (k : Int) (v : TabInfo)
    (hb : mapBounded m) (h : mapGet m k = some v) : tabBounded v :=
  hb (k, v) (mapGet_mem m k v h)

theorem mapBounded_mapSet (m : List (Int × TabInfo)) (k : Int) (v : TabInfo)
    (hb : mapBounded m) (hv : tabBounded v) : mapBounded (mapSet m k v) := by
  intro p hp
  rcases mem_mapSet m k v p hp with h | h
  · rw [h]
    exact hv
  · exact hb p h

theorem mapBounded_mapDelete (m : List (Int × TabInfo)) (k : Int)
    (hb : mapBounded m) : mapBounded (mapDelete m k) :=
  fun p hp => hb p (mem_mapDelete m k p hp)

theorem tabBounded_none (t : TabInfo) (h : t.filteringEvents = none) : tabBounded t := by
  intro evs hevs
  rw [h] at hevs
  cases hevs

theorem tabBounded_getD (t : TabInfo) (h : tabBounded t) :
    (t.filteringEvents.getD []).length ≤ REQUESTS_SIZE_PER_TAB := by
  cases ht : t.filteringEvents with
  | none => simp [REQUESTS_SIZE_PER_TAB]
  | some evs => simpa using h evs ht

theorem goodState_pushFilteringEvent (st : LogState) (tabId : Int) (tabInfo : TabInfo)
    (fe : FilteringEvent) (h : goodState st) (ht : tabBounded tabInfo) :
    goodState (pushFilteringEvent st tabId tabInfo fe).1 := by
  refine ⟨mapBounded_mapSet _ _ _ h.1 ?_, keys_nodup_mapSet _ _ _ h.2⟩
  intro evs hevs
  have hX : some (evictPush (tabInfo.filteringEvents.getD []) fe) = some evs := hevs
  have hE : evictPush (tabInfo.filteringEvents.getD []) fe = evs := by injection hX
  rw [← hE]
  exact evictPush_length_le _ _ (tabBounded_getD tabInfo ht)

theorem goodState_updateTabInfo (st : LogState) (tab : Tab) (h : goodState st) :
    goodState (updateTabInfo st tab).1 := by
  refine ⟨mapBounded_mapSet _ _ _ h.1 ?_, keys_nodup_mapSet _ _ _ h.2⟩
  intro evs hevs
  have hX : (match mapGet st.tabsInfoMap tab.tabId with
      | some t => t.filteringEvents
      | none => none) = some evs := hevs
  split at hX
  · rename_i t hm
    exact tabBounded_of_mapGet _ _ _ h.1 hm evs hX
  · exact Option.noConfusion hX

theorem goodState_addTab (st : LogState) (tab : Tab) (h : goodState st) :
    goodState (addTab st tab).1 := by
  unfold addTab
  split
  · exact h
  · exact goodState_updateTabInfo st tab h

theorem goodState_updateTab (st : LogState) (tab : Tab) (h : goodState st) :
    goodState (updateTab st tab).1 := by
  unfold updateTab
  split
  · exact h
  · exact goodState_updateTabInfo st tab h

theorem goodState_removeTabById (st : LogState) (tabId : Int) (h : goodState st) :
    goodState (removeTabById st tabId).1 := by
  unfold removeTabById
  split
  · exact h
  · exact ⟨mapBounded_mapDelete _ _ h.1, keys_nodup_mapDelete _ _ h.2⟩

theorem goodState_addHttpRequestEvent (st : LogState) (tab : Tab)
    (u fu ty : String) (r : Option SourceRule) (eid : Nat) (h : goodState st) :
    goodState (addHttpRequestEvent st tab u fu ty r eid).1 := by
  unfold addHttpRequestEvent
  split
  · exact h
  · cases hm : mapGet st.tabsInfoMap tab.tabId with
    | none => exact h
    | some tabInfo =>
      exact goodState_pushFilteringEvent st tab.tabId tabInfo _ h
        (tabBounded_of_mapGet _ _ _ h.1 hm)

theorem goodState_addCosmeticEvent (st : LogState) (tab : Tab)
    (el fu ty : String) (r : Option SourceRule) (h : goodState st) :
    goodState (addCosmeticEvent st tab el fu ty r).1 := by
  unfold addCosmeticEvent
  split
  · exact h
  · split
    · exact h
    · cases hm : mapGet st.tabsInfoMap tab.tabId with
      | none => exact h
      | some tabInfo =>
        exact goodState_pushFilteringEvent st tab.tabId tabInfo _ h
          (tabBounded_of_mapGet _ _ _ h.1 hm)

theorem goodState_addCookieEvent (st : LogState) (tab : Tab)
    (cn cv cd ty : String) (r : Option SourceRule) (m tp : Bool) (h : goodState st) :
    goodState (addCookieEvent st tab cn cv cd ty r m tp).1 := by
  unfold addCookieEvent
  split
  · exact h
  · cases hm : mapGet st.tabsInfoMap tab.tabId with
    | none => exact h
    | some tabInfo =>
      exact goodState_pushFilteringEvent st tab.tabId tabInfo _ h
        (tabBounded_of_mapGet _ _ _ h.1 hm)

theorem goodState_bindRule (st : LogState) (tab : Tab) (r : SourceRule) (eid : Nat)
    (h : goodState st) : goodState (bindRuleToHttpRequestEvent st tab r eid).1 := by
  unfold bindRuleToHttpRequestEvent
  split
  · exact h
  · split
    · exact h
    · rename_i tabInfo hm
      split
      · exact h
      · rename_i events hb
        split
        · exact h
        · rename_i updated hu
          refine ⟨mapBounded_mapSet _ _ _ h.1 ?_, keys_nodup_mapSet _ _ _ h.2⟩
          intro evs hevs
          have hX : some (updateLastMatching events eid (fun e => addRuleToFilteringEvent e r)).1 = some evs := hevs
          have hE : (updateLastMatching events eid (fun e => addRuleToFilteringEvent e r)).1 = evs := by injection hX
          rw [← hE, updateLastMatching_length]
          exact tabBounded_of_mapGet _ _ _ h.1 hm events hb

theorem goodState_bindReplaceRules (st : LogState) (tab : Tab) (rs : List SourceRule)
    (eid : Nat) (h : goodState st) :
    goodState (bindReplaceRulesToHttpRequestEvent st tab rs eid).1 := by
  unfold bindReplaceRulesToHttpRequestEvent
  split
  · exact h
  · split
    · exact h
    · rename_i tabInfo hm
      split
      · exact h
      · rename_i events hb
        split
        · exact h
        · rename_i updated hu
          refine ⟨mapBounded_mapSet _ _ _ h.1 ?_, keys_nodup_mapSet _ _ _ h.2⟩
          intro evs hevs
          have hX : some (updateLastMatching events eid (fun e => addReplaceRulesToFilteringEvent e rs)).1 = some evs := hevs
          have hE : (updateLastMatching events eid (fun e => addReplaceRulesToFilteringEvent e rs)).1 = evs := by injection hX
          rw [← hE, updateLastMatching_length]
          exact tabBounded_of_mapGet _ _ _ h.1 hm events hb

theorem goodState_bindStealthActions (st : LogState) (tab : Tab) (a eid : Nat)
    (h : goodState st) : goodState (bindStealthActionsToHttpRequestEvent st tab a eid).1 := by
  unfold bindStealthActionsToHttpRequestEvent
  split
  · exact h
  · split
    · exact h
    · rename_i tabInfo hm
      split
      · exact h
      · rename_i events hb
        split
        · exact h
        · rename_i updated hu
          refine ⟨mapBounded_mapSet _ _ _ h.1 ?_, keys_nodup_mapSet _ _ _ h.2⟩
          intro evs hevs
          have hX : some (updateLastMatching events eid (fun e => { e with stealthActions := some a })).1 = some evs := hevs
          have hE : (updateLastMatching events eid (fun e => { e with stealthActions := some a })).1 = evs := by injection hX
          rw [← hE, updateLastMatching_length]
          exact tabBounded_of_mapGet _ _ _ h.1 hm events hb

theorem goodState_clearEventsByTabId (st : LogState) (tabId : Int) (h : goodState st) :
    goodState (clearEventsByTabId st tabId).1 := by
  unfold clearEventsByTabId
  cases hm : mapGet st.tabsInfoMap tabId with
  | none => exact h
  | some t =>
    exact ⟨mapBounded_mapSet _ _ _ h.1 (tabBounded_none _ rfl), keys_nodup_mapSet _ _ _ h.2⟩

theorem keys_map_clear (m : List (Int × TabInfo)) :
    (m.map (fun p => (p.1, { p.2 with filteringEvents := none }))).map Prod.fst = m.map Prod.fst := by
  induction m with
  | nil => simp
  | cons p rest ih => simp [ih]

theorem goodState_onOpen (st : LogState) (h : goodState st) :
    goodState (onOpenFilteringLogPage st).1 := h

theorem goodState_onClose (st : LogState) (h : goodState st) :
    goodState (onCloseFilteringLogPage st).1 := by
  unfold onCloseFilteringLogPage
  split
  · refine ⟨?_, ?_⟩
    · intro p hp
      rcases List.mem_map.mp hp with ⟨q, hq, hpq⟩
      rw [← hpq]
      exact tabBounded_none _ rfl
    · rw [keys_map_clear]
      exact h.2
  · exact h

theorem goodState_syncPhase1 (tabs : List Tab) (st : LogState) (ns : List Notification)
    (tr : List Int) (h : goodState st) : goodState (syncPhase1 st ns tr tabs).1 := by
  induction tabs generalizing st ns tr with
  | nil => exact h
  | cons t rest ih =>
    simp only [syncPhase1]
    cases hm : mapGet st.tabsInfoMap t.tabId with
    | none => exact ih _ _ _ (goodState_addTab st t h)
    | some ti => exact ih _ _ _ (goodState_updateTab st t h)

theorem goodState_syncPhase2 (tr : List Int) (st : LogState) (ns : List Notification)
    (h : goodState st) : goodState (syncPhase2 st ns tr).1 := by
  induction tr generalizing st ns with
  | nil => exact h
  | cons j rest ih =>
    simp only [syncPhase2]
    exact ih _ _ (goodState_removeTabById st j h)

theorem goodState_synchronizeOpenTabs (st : LogState) (tabs : List Tab)
    (h : goodState st) : goodState (synchronizeOpenTabs st tabs).1 := by
  unfold synchronizeOpenTabs
  exact goodState_syncPhase2 _ _ _ (goodState_syncPhase1 tabs st [] _ h)

theorem goodState_applyOp (st : LogState) (op : Op) (h : goodState st) :
    goodState (applyOp st op).1 := by
  cases op with
  | addTab tab => exact goodState_addTab st tab h
  | removeTabById tabId => exact goodState_removeTabById st tabId h
  | updateTab tab => exact goodState_updateTab st tab h
  | addHttpRequestEvent tab u fu ty r eid => exact goodState_addHttpRequestEvent st tab u fu ty r eid h
  | addCosmeticEvent tab el fu ty r => exact goodState_addCosmeticEvent st tab el fu ty r h
  | addCookieEvent tab cn cv cd ty r m tp => exact goodState_addCookieEvent st tab cn cv cd ty r m tp h
  | bindRuleToHttpRequestEvent tab r eid => exact goodState_bindRule st tab r eid h
  | bindReplaceRulesToHttpRequestEvent tab rs eid => exact goodState_bindReplaceRules st tab rs eid h
  | bindStealthActionsToHttpRequestEvent tab a eid => exact goodState_bindStealthActions st tab a eid h
  | clearEventsByTabId tabId => exact goodState_clearEventsByTabId st tabId h
  | synchronizeOpenTabs tabs => exact goodState_synchronizeOpenTabs st tabs h
  | onOpenFilteringLogPage => exact goodState_onOpen st h
  | onCloseFilteringLogPage => exact goodState_onClose st h

theorem goodState_runOps (ops : List Op) (st : LogState) (h : goodState st) :
    goodState (runOps st ops) := by
  induction ops generalizing st with
  | nil => exact h
  | cons op rest ih => exact ih _ (goodState_applyOp st op h)

theorem goodState_initialState (hasBackgroundTab : Bool) :
    goodState (initialState hasBackgroundTab) := by
  constructor
  · intro p hp
    cases hasBackgroundTab with
    | false => simp [initialState] at hp
    | true =>
      have hp' : p = (backgroundTabId, backgroundTab) := by
        simpa [initialState] using hp
      rw [hp']
      exact tabBounded_none _ rfl
  · cases hasBackgroundTab with
    | false => simp [initialState]
    | true => simp [initialState]

/-! ### Lemmas about synchronizeOpenTabs -/

theorem removeFirst_sublist (l : List Int) (k : Int) : (removeFirst l k).Sublist l := by
  induction l with
  | nil => simp [removeFirst]
  | cons x xs ih =>
    simp only [removeFirst]
    by_cases h : x = k
    · rw [if_pos h]
      exact List.sublist_cons_self x xs
    · rw [if_neg h]
      exact ih.cons₂ x

theorem mem_removeFirst (l : List Int) (k x : Int) (hx : x ∈ removeFirst l k) : x ∈ l :=
  (removeFirst_sublist l k).mem hx

theorem mem_removeFirst_of_ne (l : List Int) (k x : Int) (hx : x ∈ l) (hne : x ≠ k) :
    x ∈ removeFirst l k := by
  induction l with
  | nil => simp at hx
  | cons y ys ih =>
    simp only [removeFirst]
    by_cases hy : y = k
    · rw [if_pos hy]
      rcases List.mem_cons.mp hx with h | h
      · exact absurd (h.trans hy) hne
      · exact h
    · rw [if_neg hy]
      rcases List.mem_cons.mp hx with h | h
      · rw [h]
        exact List.mem_cons_self y (removeFirst ys k)
      · exact List.mem_cons_of_mem y (ih h)

theorem not_mem_removeFirst_self (l : List Int) (k : Int) (hnd : l.Nodup) :
    k ∉ removeFirst l k := by
  induction l with
  | nil => simp [removeFirst]
  | cons x xs ih =>
    simp only [List.nodup_cons] at hnd
    simp only [removeFirst]
    by_cases h : x = k
    · rw [if_pos h]
      rw [h] at hnd
      exact hnd.1
    · rw [if_neg h]
      intro hc
      rcases List.mem_cons.mp hc with hc | hc
      · exact h hc.symm
      · exact ih hnd.2 hc

theorem nodup_removeFirst (l : List Int) (k : Int) (hnd : l.Nodup) :
    (removeFirst l k).Nodup :=
  (removeFirst_sublist l k).nodup hnd

theorem addTab_keys_mono (st : LogState) (t : Tab) (x : Int)
    (hx : x ∈ st.tabsInfoMap.map Prod.fst) :
    x ∈ (addTab st t).1.tabsInfoMap.map Prod.fst := by
  unfold addTab
  split
  · exact hx
  · exact keys_mapSet_mono _ _ _ x hx

theorem updateTab_keys_mono (st : LogState) (t : Tab) (x : Int)
    (hx : x ∈ st.tabsInfoMap.map Prod.fst) :
    x ∈ (updateTab st t).1.tabsInfoMap.map Prod.fst := by
  unfold updateTab
  split
  · exact hx
  · exact keys_mapSet_mono _ _ _ x hx

theorem addTab_keys_subset (st : LogState) (t : Tab) (x : Int)
    (hx : x ∈ (addTab st t).1.tabsInfoMap.map Prod.fst) :
    x ∈ st.tabsInfoMap.map Prod.fst ∨ x = t.tabId := by
  unfold addTab at hx
  split at hx
  · exact Or.inl hx
  · exact keys_mapSet_subset _ _ _ x hx

theorem updateTab_keys_subset (st : LogState) (t : Tab) (x : Int)
    (hx : x ∈ (updateTab st t).1.tabsInfoMap.map Prod.fst) :
    x ∈ st.tabsInfoMap.map Prod.fst ∨ x = t.tabId := by
  unfold updateTab at hx
  split at hx
  · exact Or.inl hx
  · exact keys_mapSet_subset _ _ _ x hx

theorem addTab_mem_keys (st : LogState) (t : Tab) (h : ¬ t.tabId = backgroundTabId) :
    t.tabId ∈ (addTab st t).1.tabsInfoMap.map Prod.fst := by
  unfold addTab
  rw [if_neg h]
  exact mem_keys_mapSet_self _ _ _

theorem updateTab_mem_keys (st : LogState) (t : Tab) (h : ¬ t.tabId = backgroundTabId) :
    t.tabId ∈ (updateTab st t).1.tabsInfoMap.map Prod.fst := by
  unfold updateTab
  rw [if_neg h]
  exact mem_keys_mapSet_self _ _ _

theorem addTab_get_bg (st : LogState) (t : Tab) :
    mapGet (addTab st t).1.tabsInfoMap backgroundTabId = mapGet st.tabsInfoMap backgroundTabId := by
  unfold addTab
  split
  · rfl
  · rename_i h
    exact mapGet_mapSet_ne _ _ _ _ (fun hc => h hc.symm)

theorem updateTab_get_bg (st : LogState) (t : Tab) :
    mapGet (updateTab st t).1.tabsInfoMap backgroundTabId = mapGet st.tabsInfoMap backgroundTabId := by
  unfold updateTab
  split
  · rfl
  · rename_i h
    exact mapGet_mapSet_ne _ _ _ _ (fun hc => h hc.symm)

theorem removeTabById_keys_subset (st : LogState) (j x : Int)
    (hx : x ∈ (removeTabById st j).1.tabsInfoMap.map Prod.fst) :
    x ∈ st.tabsInfoMap.map Prod.fst := by
  unfold removeTabById at hx
  split at hx
  · exact hx
  · exact keys_mapDelete_subset _ _ _ hx

theorem removeTabById_removes (st : LogState) (j : Int) (hbg : ¬ j = backgroundTabId) :
    j ∉ (removeTabById st j).1.tabsInfoMap.map Prod.fst := by
  unfold removeTabById
  rw [if_neg hbg]
  exact not_mem_keys_mapDelete_self _ _

theorem removeTabById_keeps (st : LogState) (j x : Int) (hne : x ≠ j)
    (hx : x ∈ st.tabsInfoMap.map Prod.fst) :
    x ∈ (removeTabById st j).1.tabsInfoMap.map Prod.fst := by
  unfold removeTabById
  split
  · exact hx
  · exact mem_keys_mapDelete _ _ _ hx hne

theorem removeTabById_get_bg (st : LogState) (j : Int) :
    mapGet (removeTabById st j).1.tabsInfoMap backgroundTabId = mapGet st.tabsInfoMap backgroundTabId := by
  unfold removeTabById
  split
  · rfl
  · rename_i h
    exact mapGet_mapDelete_ne _ _ _ (fun hc => h hc.symm)

theorem nodup_keys_addTab (st : LogState) (t : Tab)
    (h : (st.tabsInfoMap.map Prod.fst).Nodup) :
    ((addTab st t).1.tabsInfoMap.map Prod.fst).Nodup := by
  unfold addTab
  split
  · exact h
  · exact keys_nodup_mapSet _ _ _ h

theorem nodup_keys_updateTab (st : LogState) (t : Tab)
    (h : (st.tabsInfoMap.map Prod.fst).Nodup) :
    ((updateTab st t).1.tabsInfoMap.map Prod.fst).Nodup := by
  unfold updateTab
  split
  · exact h
  · exact keys_nodup_mapSet _ _ _ h

theorem nodup_keys_removeTabById (st : LogState) (j : Int)
    (h : (st.tabsInfoMap.map Prod.fst).Nodup) :
    ((removeTabById st j).1.tabsInfoMap.map Prod.fst).Nodup := by
  unfold removeTabById
  split
  · exact h
  · exact keys_nodup_mapDelete _ _ h

theorem syncPhase1_keys_mono (tabs : List Tab) (st : LogState) (ns : List Notification)
    (tr : List Int) (x : Int) (hx : x ∈ st.tabsInfoMap.map Prod.fst) :
    x ∈ (syncPhase1 st ns tr tabs).1.tabsInfoMap.map Prod.fst := by
  induction tabs generalizing st ns tr with
  | nil => exact hx
  | cons t rest ih =>
    simp only [syncPhase1]
    cases hm : mapGet st.tabsInfoMap t.tabId with
    | none => exact ih _ _ _ (addTab_keys_mono st t x hx)
    | some ti => exact ih _ _ _ (updateTab_keys_mono st t x hx)

theorem syncPhase1_nodup_keys (tabs : List Tab) (st : LogState) (ns : List Notification)
    (tr : List Int) (h : (st.tabsInfoMap.map Prod.fst).Nodup) :
    ((syncPhase1 st ns tr tabs).1.tabsInfoMap.map Prod.fst).Nodup := by
  induction tabs generalizing st ns tr with
  | nil => exact h
  | cons t rest ih =>
    simp only [syncPhase1]
    cases hm : mapGet st.tabsInfoMap t.tabId with
    | none => exact ih _ _ _ (nodup_keys_addTab st t h)
    | some ti => exact ih _ _ _ (nodup_keys_updateTab st t h)

theorem syncPhase1_live_present (tabs : List Tab) (st : LogState) (ns : List Notification)
    (tr : List Int) :
    ∀ t ∈ tabs, ¬ t.tabId = backgroundTabId →
      t.tabId ∈ (syncPhase1 st ns tr tabs).1.tabsInfoMap.map Prod.fst := by
  induction tabs generalizing st ns tr with
  | nil =>
    intro t ht
    exact absurd ht (List.not_mem_nil t)
  | cons u rest ih =>
    intro t ht hbg
    simp only [syncPhase1]
    rcases List.mem_cons.mp ht with rfl | h
    · cases hm : mapGet st.tabsInfoMap t.tabId with
      | none => exact syncPhase1_keys_mono rest _ _ _ _ (addTab_mem_keys st t hbg)
      | some ti => exact syncPhase1_keys_mono rest _ _ _ _ (updateTab_mem_keys st t hbg)
    · cases hm : mapGet st.tabsInfoMap u.tabId with
      | none => exact ih _ _ _ t h hbg
      | some ti => exact ih _ _ _ t h hbg

theorem syncPhase1_keys_subset (tabs : List Tab) (st : LogState) (ns : List Notification)
    (tr : List Int) (x : Int)
    (hx : x ∈ (syncPhase1 st ns tr tabs).1.tabsInfoMap.map Prod.fst) :
    x ∈ st.tabsInfoMap.map Prod.fst ∨ x ∈ tabs.map Tab.tabId := by
  induction tabs generalizing st ns tr with
  | nil => exact Or.inl hx
  | cons t rest ih =>
    revert hx
    simp only [syncPhase1]
    cases hm : mapGet st.tabsInfoMap t.tabId with
    | none =>
      intro hx
      rcases ih _ _ _ hx with h | h
      · rcases addTab_keys_subset st t x h with h' | h'
        · exact Or.inl h'
        · refine Or.inr ?_
          simp only [List.map_cons, List.mem_cons]
          exact Or.inl h'
      · refine Or.inr ?_
        simp only [List.map_cons, List.mem_cons]
        exact Or.inr h
    | some ti =>
      intro hx
      rcases ih _ _ _ hx with h | h
      · rcases updateTab_keys_subset st t x h with h' | h'
        · exact Or.inl h'
        · refine Or.inr ?_
          simp only [List.map_cons, List.mem_cons]
          exact Or.inl h'
      · refine Or.inr ?_
        simp only [List.map_cons, List.mem_cons]
        exact Or.inr h

theorem syncPhase1_toRemove_subset (tabs : List Tab) (st : LogState) (ns : List Notification)
    (tr : List Int) (x : Int) (hx : x ∈ (syncPhase1 st ns tr tabs).2.2) : x ∈ tr := by
  induction tabs generalizing st ns tr with
  | nil => exact hx
  | cons t rest ih =>
    revert hx
    simp only [syncPhase1]
    intro hx
    exact mem_removeFirst _ _ _ (ih _ _ _ hx)

theorem syncPhase1_toRemove_keep (tabs : List Tab) (st : LogState) (ns : List Notification)
    (tr : List Int) (x : Int) (hx : x ∈ tr) (hne : ∀ t ∈ tabs, t.tabId ≠ x) :
    x ∈ (syncPhase1 st ns tr tabs).2.2 := by
  induction tabs generalizing st ns tr with
  | nil => exact hx
  | cons t rest ih =>
    simp only [syncPhase1]
    refine ih _ _ _ (mem_removeFirst_of_ne tr t.tabId x hx ?_) ?_
    · exact fun hc => hne t (List.mem_cons_self t rest) hc.symm
    · exact fun u hu => hne u (List.mem_cons_of_mem t hu)

theorem syncPhase1_live_not_in_toRemove (tabs : List Tab) (st : LogState)
    (ns : List Notification) (tr : List Int) (hnd : tr.Nodup) :
    ∀ t ∈ tabs, t.tabId ∉ (syncPhase1 st ns tr tabs).2.2 := by
  induction tabs generalizing st ns tr with
  | nil =>
    intro t ht
    exact absurd ht (List.not_mem_nil t)
  | cons u rest ih =>
    intro t ht
    simp only [syncPhase1]
    rcases List.mem_cons.mp ht with rfl | h
    · intro hc
      exact not_mem_removeFirst_self tr t.tabId hnd
        (syncPhase1_toRemove_subset rest _ _ _ _ hc)
    · exact ih _ _ _ (nodup_removeFirst tr u.tabId hnd) t h

theorem syncPhase1_notifs_tabUpdate (tabs : List Tab) (st : LogState)
    (ns : List Notification) (tr : List Int)
    (hpresent : ∀ t ∈ tabs, ¬ t.tabId = backgroundTabId →
      t.tabId ∈ st.tabsInfoMap.map Prod.fst)
    (hns : ∀ n ∈ ns, ∃ tabInfo, n = Notification.tabUpdate tabInfo) :
    ∀ n ∈ (syncPhase1 st ns tr tabs).2.1, ∃ tabInfo, n = Notification.tabUpdate tabInfo := by
  induction tabs generalizing st ns tr with
  | nil => exact hns
  | cons t rest ih =>
    simp only [syncPhase1]
    cases hm : mapGet st.tabsInfoMap t.tabId with
    | none =>
      have hbg : t.tabId = backgroundTabId := by
        by_contra hne
        exact (mapGet_eq_none_iff st.tabsInfoMap t.tabId).mp hm
          (hpresent t (List.mem_cons_self t rest) hne)
      have haddTab : addTab st t = (st, []) := by
        unfold addTab
        rw [if_pos hbg]
      rw [haddTab]
      apply ih
      · intro u hu hne
        exact hpresent u (List.mem_cons_of_mem t hu) hne
      · intro n hn
        have hn' : n ∈ ns ++ ([] : List Notification) := hn
        rw [List.append_nil] at hn'
        exact hns n hn'
    | some ti =>
      by_cases hbg : t.tabId = backgroundTabId
      · have hupd : updateTab st t = (st, []) := by
          unfold updateTab
          rw [if_pos hbg]
        rw [hupd]
        apply ih
        · intro u hu hne
          exact hpresent u (List.mem_cons_of_mem t hu) hne
        · intro n hn
          have hn' : n ∈ ns ++ ([] : List Notification) := hn
          rw [List.append_nil] at hn'
          exact hns n hn'
      · have hupd : updateTab st t =
            ((updateTabInfo st t).1, [Notification.tabUpdate (updateTabInfo st t).2]) := by
          unfold updateTab
          rw [if_neg hbg]
        rw [hupd]
        apply ih
        · intro u hu hne
          exact keys_mapSet_mono _ _ _ _ (hpresent u (List.mem_cons_of_mem t hu) hne)
        · intro n hn
          have hn' : n ∈ ns ++ [Notification.tabUpdate (updateTabInfo st t).2] := hn
          rcases List.mem_append.mp hn' with h | h
          · exact hns n h
          · exact ⟨(updateTabInfo st t).2, List.mem_singleton.mp h⟩

theorem syncPhase1_get_bg (tabs : List Tab) (st : LogState) (ns : List Notification)
    (tr : List Int) :
    mapGet (syncPhase1 st ns tr tabs).1.tabsInfoMap backgroundTabId =
      mapGet st.tabsInfoMap backgroundTabId := by
  induction tabs generalizing st ns tr with
  | nil => rfl
  | cons t rest ih =>
    simp only [syncPhase1]
    cases hm : mapGet st.tabsInfoMap t.tabId with
    | none =>
      rw [ih]
      exact addTab_get_bg st t
    | some ti =>
      rw [ih]
      exact updateTab_get_bg st t

theorem syncPhase2_keys_subset (tr : List Int) (st : LogState) (ns : List Notification)
    (x : Int) (hx : x ∈ (syncPhase2 st ns tr).1.tabsInfoMap.map Prod.fst) :
    x ∈ st.tabsInfoMap.map Prod.fst := by
  induction tr generalizing st ns with
  | nil => exact hx
  | cons j rest ih =>
    revert hx
    simp only [syncPhase2]
    intro hx
    exact removeTabById_keys_subset st j x (ih _ _ hx)

theorem syncPhase2_nodup_keys (tr : List Int) (st : LogState) (ns : List Notification)
    (h : (st.tabsInfoMap.map Prod.fst).Nodup) :
    ((syncPhase2 st ns tr).1.tabsInfoMap.map Prod.fst).Nodup := by
  induction tr generalizing st ns with
  | nil => exact h
  | cons j rest ih =>
    simp only [syncPhase2]
    exact ih _ _ (nodup_keys_removeTabById st j h)

theorem syncPhase2_removes (tr : List Int) (st : LogState) (ns : List Notification)
    (x : Int) (hx : x ∈ tr) (hbg : ¬ x = backgroundTabId) :
    x ∉ (syncPhase2 st ns tr).1.tabsInfoMap.map Prod.fst := by
  induction tr generalizing st ns with
  | nil => exact absurd hx (List.not_mem_nil x)
  | cons j rest ih =>
    intro hc
    simp only [syncPhase2] at hc
    rcases List.mem_cons.mp hx with rfl | h
    · exact removeTabById_removes st x hbg (syncPhase2_keys_subset rest _ _ x hc)
    · exact ih _ _ h hc

theorem syncPhase2_keeps (tr : List Int) (st : LogState) (ns : List Notification)
    (x : Int) (hx : x ∈ st.tabsInfoMap.map Prod.fst) (hnot : x ∉ tr) :
    x ∈ (syncPhase2 st ns tr).1.tabsInfoMap.map Prod.fst := by
  induction tr generalizing st ns with
  | nil => exact hx
  | cons j rest ih =>
    simp only [syncPhase2]
    have hne : x ≠ j := by
      intro hc
      exact hnot (by rw [hc]; exact List.mem_cons_self j rest)
    exact ih _ _ (removeTabById_keeps st j x hne hx)
      (fun hc => hnot (List.mem_cons_of_mem j hc))

theorem syncPhase2_all_bg_noop (tr : List Int) (st : LogState) (ns : List Notification)
    (hall : ∀ x ∈ tr, x = backgroundTabId) : syncPhase2 st ns tr = (st, ns) := by
  induction tr generalizing st ns with
  | nil => rfl
  | cons j rest ih =>
    simp only [syncPhase2]
    have hj : j = backgroundTabId := hall j (List.mem_cons_self j rest)
    have hrm : removeTabById st j = (st, []) := by
      unfold removeTabById
      rw [if_pos hj]
    rw [hrm]
    show syncPhase2 st (ns ++ []) rest = (st, ns)
    rw [List.append_nil]
    exact ih _ _ (fun x hx => hall x (List.mem_cons_of_mem j hx))

theorem syncPhase2_get_bg (tr : List Int) (st : LogState) (ns : List Notification) :
    mapGet (syncPhase2 st ns tr).1.tabsInfoMap backgroundTabId =
      mapGet st.tabsInfoMap backgroundTabId := by
  induction tr generalizing st ns with
  | nil => rfl
  | cons j rest ih =>
    simp only [syncPhase2]
    rw [ih]
    exact removeTabById_get_bg st j

theorem synchronizeOpenTabs_nodup_keys (st : LogState) (tabs : List Tab)
    (hnd : (st.tabsInfoMap.map Prod.fst).Nodup) :
    (((synchronizeOpenTabs st tabs).1.tabsInfoMap.map Prod.fst)).Nodup := by
  simp only [synchronizeOpenTabs]
  exact syncPhase2_nodup_keys _ _ _ (syncPhase1_nodup_keys tabs st [] _ hnd)

theorem synchronizeOpenTabs_live_present (st : LogState) (tabs : List Tab)
    (hnd : (st.tabsInfoMap.map Prod.fst).Nodup) :
    ∀ t ∈ tabs, ¬ t.tabId = backgroundTabId →
      t.tabId ∈ (synchronizeOpenTabs st tabs).1.tabsInfoMap.map Prod.fst := by
  intro t ht hbg
  simp only [synchronizeOpenTabs]
  exact syncPhase2_keeps _ _ _ _
    (syncPhase1_live_present tabs st [] _ t ht hbg)
    (syncPhase1_live_not_in_toRemove tabs st [] _ hnd t ht)

theorem synchronizeOpenTabs_keys_subset (st : LogState) (tabs : List Tab) (x : Int)
    (hx : x ∈ (synchronizeOpenTabs st tabs).1.tabsInfoMap.map Prod.fst) :
    x = backgroundTabId ∨ x ∈ tabs.map Tab.tabId := by
  by_cases hbg : x = backgroundTabId
  · exact Or.inl hbg
  by_cases hlive : x ∈ tabs.map Tab.tabId
  · exact Or.inr hlive
  exfalso
  simp only [synchronizeOpenTabs] at hx
  have h1 := syncPhase2_keys_subset _ _ _ x hx
  have h2 := syncPhase1_keys_subset tabs st [] _ x h1
  have h3 : x ∈ st.tabsInfoMap.map Prod.fst := h2.resolve_right hlive
  have h4 : x ∈ (syncPhase1 st [] (st.tabsInfoMap.map Prod.fst) tabs).2.2 :=
    syncPhase1_toRemove_keep tabs st [] _ x h3
      (fun t ht hc => hlive (List.mem_map.mpr ⟨t, ht, hc⟩))
  exact syncPhase2_removes _ _ _ x h4 hbg hx

/-- C1: starting from the initial module state, after any sequence of
operations every session buffer holds at most REQUESTS_SIZE_PER_TAB (1000)
records and the registry holds at most one entry, hence at most one
buffer, per session id. -/
theorem c1_buffers_bounded_and_unique (hasBackgroundTab : Bool) (ops : List Op) :
    mapBounded (runOps (initialState hasBackgroundTab) ops).tabsInfoMap ∧
    ((runOps (initialState hasBackgroundTab) ops).tabsInfoMap.map Prod.fst).Nodup :=
  goodState_runOps ops (initialState hasBackgroundTab) (goodState_initialState hasBackgroundTab)

theorem synchronizeOpenTabs_only_updates (st₁ : LogState) (tabs : List Tab)
    (hnd₁ : (st₁.tabsInfoMap.map Prod.fst).Nodup)
    (hpres : ∀ t ∈ tabs, ¬ t.tabId = backgroundTabId →
      t.tabId ∈ st₁.tabsInfoMap.map Prod.fst)
    (hsub : ∀ x ∈ st₁.tabsInfoMap.map Prod.fst,
      x = backgroundTabId ∨ x ∈ tabs.map Tab.tabId) :
    ∀ n ∈ (synchronizeOpenTabs st₁ tabs).2,
      ∃ tabInfo, n = Notification.tabUpdate tabInfo := by
  intro n hn
  have hall : ∀ x ∈ (syncPhase1 st₁ [] (st₁.tabsInfoMap.map Prod.fst) tabs).2.2,
      x = backgroundTabId := by
    intro x hx
    by_contra hbg
    have h1 : x ∈ st₁.tabsInfoMap.map Prod.fst :=
      syncPhase1_toRemove_subset tabs _ _ _ x hx
    rcases hsub x h1 with h | h
    · exact hbg h
    · rcases List.mem_map.mp h with ⟨t, ht, htid⟩
      have h2 := syncPhase1_live_not_in_toRemove tabs st₁ []
        (st₁.tabsInfoMap.map Prod.fst) hnd₁ t ht
      rw [htid] at h2
      exact h2 hx
  revert hn
  simp only [synchronizeOpenTabs]
  rw [syncPhase2_all_bg_noop _ _ _ hall]
  intro hn
  exact syncPhase1_notifs_tabUpdate tabs st₁ [] _ hpres
    (fun m hm => absurd hm (List.not_mem_nil m)) n hn

/-- C7: reconciliation is idempotent on membership notifications: running
synchronizeOpenTabs twice with the same live tab list, the second run
publishes no TAB_ADDED and no TAB_CLOSE, only TAB_UPDATE notifications. -/
theorem c7_reconciliation_idempotent (st : LogState) (tabs : List Tab)
    (hnd : (st.tabsInfoMap.map Prod.fst).Nodup) :
    ∀ n ∈ (synchronizeOpenTabs (synchronizeOpenTabs st tabs).1 tabs).2,
      ∃ tabInfo, n = Notification.tabUpdate tabInfo :=
  synchronizeOpenTabs_only_updates (synchronizeOpenTabs st tabs).1 tabs
    (synchronizeOpenTabs_nodup_keys st tabs hnd)
    (synchronizeOpenTabs_live_present st tabs hnd)
    (fun x hx => synchronizeOpenTabs_keys_subset st tabs x hx)

/-- Witness for C7: after syncing the freshly initialized state with one
live tab, the second sync with the same list publishes exactly one
TAB_UPDATE. -/
theorem c7_reconciliation_idempotent_witness :
    ((initialState true).tabsInfoMap.map Prod.fst).Nodup ∧
    (∃ tabInfo, Notification.tabUpdate
        ({ tabId := 7, title := "t", isExtensionTab := none, filteringEvents := none } : TabInfo) =
      Notification.tabUpdate tabInfo) :=
  ⟨by decide,
   c7_reconciliation_idempotent (initialState true) [exTab7] (by decide)
     (Notification.tabUpdate
       ({ tabId := 7, title := "t", isExtensionTab := none, filteringEvents := none } : TabInfo))
     (by decide)⟩

/-- C8: for the designated background session id, create, update and
remove are no-ops that publish nothing, and a reconciliation sweep leaves
the background registry entry untouched. -/
theorem c8_background_session_exempt (st : LogState) (tab : Tab)
    (hbg : tab.tabId = backgroundTabId) (tabs : List Tab) :
    addTab st tab = (st, []) ∧
    updateTab st tab = (st, []) ∧
    removeTabById st backgroundTabId = (st, []) ∧
    mapGet (synchronizeOpenTabs st tabs).1.tabsInfoMap backgroundTabId =
      mapGet st.tabsInfoMap backgroundTabId := by
  refine ⟨?_, ?_, ?_, ?_⟩
  · unfold addTab
    rw [if_pos hbg]
  · unfold updateTab
    rw [if_pos hbg]
  · unfold removeTabById
    rw [if_pos rfl]
  · simp only [synchronizeOpenTabs]
    rw [syncPhase2_get_bg, syncPhase1_get_bg]

/-- Witness for C8 at the concrete active state and a background-id tab. -/
theorem c8_background_session_exempt_witness :
    exTabBg.tabId = backgroundTabId ∧
    (addTab exStateActive exTabBg = (exStateActive, []) ∧
     updateTab exStateActive exTabBg = (exStateActive, []) ∧
     removeTabById exStateActive backgroundTabId = (exStateActive, []) ∧
     mapGet (synchronizeOpenTabs exStateActive [exTab7]).1.tabsInfoMap backgroundTabId =
       mapGet exStateActive.tabsInfoMap backgroundTabId) :=
  ⟨rfl, c8_background_session_exempt exStateActive exTabBg rfl [exTab7]⟩

end FilteringLog
